import Mathlib

/-!
# Verification of the SAP-baseline → PLM reconciliation engine (src/app.py)

Shallow embedding of the core reconciliation logic of `app.py`:
field normalization (`safe_number`), numeric similarity
(`consumption_similarity`), the string-similarity scorer used for the
fuzzy fallback (`fuzz.token_sort_ratio`, modelled from the spec since the
library is external), the matcher (exact index lookup with fuzzy
fallback via `process.extractOne`), the per-record rule evaluation
(component exclusion, vendor check, consumption comparison), and the
summary counters.

Strings are Lean `String`s (the code strips every cell on load, so row
fields are already-trimmed strings); numbers are `ℚ` with explicit
rounding where the code rounds; fallible parsing returns `Option`.
-/

namespace BomValidation

/-- Python `round(x, 2)` modelled over `ℚ`: round to 2 decimal places. -/
def round2 (q : ℚ) : ℚ := (round (q * 100) : ℚ) / 100

/-- Python `round(x, 4)` modelled over `ℚ`: round to 4 decimal places. -/
def round4 (q : ℚ) : ℚ := (round (q * 10000) : ℚ) / 10000

/-- Digits of a numeric token folded into a natural number
(`float` parsing of the integer / fractional digit runs). -/
def natOfDigits (cs : List Char) : ℕ :=
  cs.foldl (fun a c => a * 10 + (c.toNat - 48)) 0

/-- Unsigned decimal literal: digits, optionally a dot and more digits,
at least one digit overall (models the common inputs accepted by
Python's `float`). -/
def parseUnsigned (cs : List Char) : Option ℚ :=
  let intPart := cs.takeWhile Char.isDigit
  let rest := cs.dropWhile Char.isDigit
  match rest with
  | [] => if intPart.isEmpty then none else some (natOfDigits intPart : ℚ)
  | '.' :: frac =>
      if frac.all Char.isDigit ∧ ¬(intPart.isEmpty ∧ frac.isEmpty) then
        some ((natOfDigits intPart : ℚ) + (natOfDigits frac : ℚ) / (10 ^ frac.length))
      else none
  | _ => none

/-- Signed decimal literal (optional leading `+`/`-`). -/
def parseSigned (cs : List Char) : Option ℚ :=
  match cs with
  | '-' :: rest => (parseUnsigned rest).map (fun q => -q)
  | '+' :: rest => parseUnsigned rest
  | _ => parseUnsigned cs

/-- The `safe_number` helper (app.py lines 22-28): `None`/empty input
gives `None`; otherwise strip thousands separators and parse as a float,
any failure giving `None`. -/
def safe_number (x : String) : Option ℚ :=
  if x = "" then none
  else parseSigned ((x.toList).filter (fun c => c ≠ ','))

/-- The `consumption_similarity` helper (app.py lines 30-40): 100 when both inputs
are missing; otherwise substitute 0 for a missing side (`a or 0.0`),
return 100 when both are zero, else `round(max(0, 100 - |a-b|/max(|a|,|b|,1)*100), 2)`. -/
def consumption_similarity (a b : Option ℚ) : ℚ :=
  if a = none ∧ b = none then 100
  else
    let a' := a.getD 0
    let b' := b.getD 0
    if a' = 0 ∧ b' = 0 then 100
    else
      let denom := max (max |a'| |b'|) 1
      let pct := |a' - b'| / denom * 100
      round2 (max 0 (100 - pct))

/-- Inner loop of `lcsLen`: with `f = lcsLen as`, `lcsAux a f ys`
computes the LCS length of `a :: as` against `ys`. -/
def lcsAux (a : Char) (f : List Char → ℕ) : List Char → ℕ
  | [] => 0
  | b :: bs => if a = b then 1 + f bs else max (lcsAux a f bs) (f (b :: bs))

/-- Length of a longest common subsequence of two character lists. -/
def lcsLen : List Char → List Char → ℕ
  | [], _ => 0
  | a :: as, ys => lcsAux a (lcsLen as) ys

/-- Normalized indel similarity of two processed strings on a 0-100
scale (the `ratio` underlying `token_sort_ratio`), i.e.
`round(200 * lcs / (|x| + |y|))`, computed in ℕ with round-half-up
(`round(a/s) = (2a + s) / (2s)` in integer division); 100 when both
strings are empty. -/
def ratio100 (x y : List Char) : ℕ :=
  if x.length + y.length = 0 then 100
  else (400 * lcsLen x y + (x.length + y.length)) / (2 * (x.length + y.length))

/-- One pass of whitespace tokenization, accumulating the current token
in reverse. -/
def tokenizeAux : List Char → List Char → List (List Char)
  | [], acc => if acc.isEmpty then [] else [acc.reverse]
  | c :: cs, acc =>
      if c = ' ' then
        if acc.isEmpty then tokenizeAux cs [] else acc.reverse :: tokenizeAux cs []
      else tokenizeAux cs (c :: acc)

/-- Split a character list on runs of spaces, dropping empty tokens. -/
def tokenize (cs : List Char) : List (List Char) := tokenizeAux cs []

/-- Lexicographic order on character lists (code-point order, as Python
`sorted` uses on strings). -/
def lexLe : List Char → List Char → Bool
  | [], _ => true
  | _ :: _, [] => false
  | a :: as, b :: bs => if a = b then lexLe as bs else decide (a < b)

/-- Insertion into a `lexLe`-sorted token list. -/
def insertTok (x : List Char) : List (List Char) → List (List Char)
  | [] => [x]
  | y :: ys => if lexLe x y then x :: y :: ys else y :: insertTok x ys

/-- Insertion sort of a token list. -/
def sortToks : List (List Char) → List (List Char)
  | [] => []
  | x :: xs => insertTok x (sortToks xs)

/-- Join tokens with single spaces. -/
def joinSpace : List (List Char) → List Char
  | [] => []
  | [t] => t
  | t :: ts => t ++ ' ' :: joinSpace ts

/-- Default string processing of the scorer: lowercase, replace
non-alphanumeric characters by spaces, tokenize, sort the tokens and
re-join them with single spaces. -/
def procSorted (s : String) : List Char :=
  joinSpace (sortToks (tokenize (s.toList.map (fun c => if c.isAlphanum then c.toLower else ' '))))

/-- Modelled from the spec: `stringSimilarity` (§4.2), the
`fuzz.token_sort_ratio` scorer used at app.py lines 211, 262 and 280.
The library source is not part of this repository, so the scorer is
modelled from the spec's description: tokenize on whitespace/punctuation
after lowercasing, sort the tokens, and take the best alignment of the
sorted token sequences (normalized indel similarity on a 0-100 scale);
100 when both inputs are empty; total on all string pairs. -/
def stringSimilarity (a b : String) : ℕ :=
  ratio100 (procSorted a) (procSorted b)

/-- Python substring test `needle in hay` over Lean strings. -/
def strContainsSub (hay needle : String) : Bool :=
  (List.range (hay.toList.length + 1)).any
    (fun i => ((hay.toList.drop i).take needle.toList.length) = needle.toList)

/-- A baseline (SAP) row, restricted to the mapped columns the engine
reads (app.py lines 166-172); every cell is already stripped (line 150). -/
structure SapRow where
  material : String
  component : String
  desc : String
  vendor : String
  color : String
  consRaw : String
  deriving Repr, DecidableEq

/-- A downstream (PLM) row, restricted to the mapped columns the engine
reads (app.py lines 235-240); every cell is already stripped. -/
structure PlmRow where
  material : String
  vendor : String
  color : String
  consRaw : String
  deriving Repr, DecidableEq

/-- The per-record outcome `row_out` (app.py lines 174-193). -/
structure RowOut where
  Material_SAP : String
  Material_Description_SAP : String
  Component_SAP : String
  Vendor_SAP : String
  Color_SAP : String
  SAP_Consumption : Option ℚ
  Found_in_PLM : Bool
  Component_Flag : String
  Vendor_Check : String
  PLM_Material : String
  Vendor_PLM : String
  Color_PLM : String
  PLM_Consumption : Option ℚ
  ConsumptionDiff : Option ℚ
  DifferenceFlag : String
  Material_Similarity : ℕ
  Color_Similarity : ℕ
  Consumption_Similarity : ℚ
  Notes : String
  deriving Repr, DecidableEq

/-- The initialized output fields for a baseline row (app.py lines 175-193). -/
def initRow (srow : SapRow) : RowOut :=
  { Material_SAP := srow.material
    Material_Description_SAP := srow.desc
    Component_SAP := srow.component
    Vendor_SAP := srow.vendor
    Color_SAP := srow.color
    SAP_Consumption := safe_number srow.consRaw
    Found_in_PLM := false
    Component_Flag := ""
    Vendor_Check := ""
    PLM_Material := ""
    Vendor_PLM := ""
    Color_PLM := ""
    PLM_Consumption := none
    ConsumptionDiff := none
    DifferenceFlag := ""
    Material_Similarity := 0
    Color_Similarity := 0
    Consumption_Similarity := 0
    Notes := "" }

/-- Python `comp.lstrip().startswith("3")` (app.py line 196). -/
def startsWith3AfterLstrip (comp : String) : Bool :=
  match comp.toList.dropWhile Char.isWhitespace with
  | '3' :: _ => true
  | _ => false

/-- The component-exclusion test (app.py line 196): component non-empty
and (contains `-` or starts with `3` after stripping leading whitespace). -/
def componentExcluded (comp : String) : Prop :=
  comp ≠ "" ∧ (comp.toList.contains '-' = true ∨ startsWith3AfterLstrip comp = true)

instance : DecidablePred componentExcluded := fun c => by
  unfold componentExcluded; infer_instance

/-- Result of resolving one baseline key against the PLM rows. -/
inductive MatchResult where
  | exact (r : PlmRow)
  | fuzzy (r : PlmRow) (score : ℕ)
  | unmatched (diag : String)
  deriving Repr, DecidableEq

/-- Inner loop of `process.extractOne`: scan the remaining choices keeping
the current best, replacing it only on a strictly greater score. -/
def extractOneAux (q : String) (bestV : String) (bestS : ℕ) : List String → String × ℕ
  | [] => (bestV, bestS)
  | c :: cs =>
      let sc := stringSimilarity q c
      if bestS < sc then extractOneAux q c sc cs else extractOneAux q bestV bestS cs

/-- Modelled from the spec: `process.extractOne` (app.py line 211), the
best fuzzy candidate of the downstream key universe — the library is
external to this repository.  Returns the first choice attaining the
highest scorer value, with its score; `none` on an empty choice list. -/
def extractOne (q : String) : List String → Option (String × ℕ)
  | [] => none
  | c :: cs => some (extractOneAux q c (stringSimilarity q c) cs)

/-- The matcher (app.py lines 202-231): exact lookup of a non-empty
baseline key in the PLM index (first occurrence under the key), else
fuzzy fallback over the PLM material values with the caller-supplied
threshold. -/
def matchRecord (plmRows : List PlmRow) (threshold : ℕ) (sapMat : String) : MatchResult :=
  if sapMat ≠ "" ∧ (plmRows.find? (fun r => r.material == sapMat)).isSome then
    match plmRows.find? (fun r => r.material == sapMat) with
    | some r => .exact r
    | none => .unmatched "No PLM match row found (unexpected path)"
  else
    if (plmRows.map (fun r => r.material)).isEmpty then
      .unmatched "PLM materials list empty"
    else
      match extractOne sapMat (plmRows.map (fun r => r.material)) with
      | none => .unmatched "Material not found in PLM (best material fuzzy score N/A)"
      | some (v, sc) =>
          if threshold ≤ sc then
            match plmRows.find? (fun r => r.material == v) with
            | some r => .fuzzy r sc
            | none => .unmatched "No PLM match row found (unexpected path)"
          else
            .unmatched ("Material not found in PLM (best material fuzzy score " ++ toString sc ++ ")")

/-- Python `str.strip(" |")` as used at app.py line 258. -/
def stripSpacePipe (s : String) : String :=
  String.mk (((s.toList.dropWhile (fun c => c = ' ' ∨ c = '|')).reverse.dropWhile
    (fun c => c = ' ' ∨ c = '|')).reverse)

/-- Copy the matched PLM row's fields into the outcome
(app.py lines 240-243). -/
def withPlmFields (mrow : PlmRow) (b : RowOut) : RowOut :=
  { b with PLM_Material := mrow.material, Vendor_PLM := mrow.vendor,
           Color_PLM := mrow.color, PLM_Consumption := safe_number mrow.consRaw }

/-- Vendor check (app.py lines 245-258): exact match of non-empty vendor
fields, else non-empty PLM vendor found inside the SAP material
description, else Not Found (with a note appended). -/
def vendorStep (srow : SapRow) (mrow : PlmRow) (b : RowOut) : RowOut :=
  if srow.vendor ≠ "" ∧ mrow.vendor ≠ "" ∧ srow.vendor = mrow.vendor then
    { b with Vendor_Check := "Vendor OK (exact match)" }
  else if mrow.vendor ≠ "" ∧ strContainsSub srow.desc mrow.vendor = true then
    { b with Vendor_Check := "Vendor OK (found in material description)" }
  else
    { b with Vendor_Check := "Vendor Not Found",
             Notes := stripSpacePipe
               (b.Notes ++ " | Vendor not found in SAP vendor column or material description") }

/-- Color similarity (app.py lines 260-264): scored only when both color
fields are non-empty, 0 otherwise. -/
def colorStep (srow : SapRow) (mrow : PlmRow) (b : RowOut) : RowOut :=
  if mrow.color ≠ "" ∧ srow.color ≠ "" then
    { b with Color_Similarity := stringSimilarity srow.color mrow.color }
  else
    { b with Color_Similarity := 0 }

/-- Consumption diff and flag (app.py lines 266-277): missing marker when
either side is unparseable; otherwise the signed difference PLM − SAP,
the numeric-closeness score, and the higher/OK flag. -/
def consStep (sap_cons plm_cons : Option ℚ) (b : RowOut) : RowOut :=
  match sap_cons, plm_cons with
  | some a, some bq =>
      { b with ConsumptionDiff := some (bq - a)
               Consumption_Similarity := consumption_similarity (some a) (some bq)
               DifferenceFlag := if bq < a then "SAP consumption is higher" else "OK" }
  | _, _ => { b with ConsumptionDiff := none, DifferenceFlag := "Missing consumption value" }

/-- Material similarity (app.py line 280): scored only when both
material keys are non-empty, 0 otherwise. -/
def matSimStep (srow : SapRow) (mrow : PlmRow) (b : RowOut) : RowOut :=
  { b with Material_Similarity :=
      if srow.material ≠ "" ∧ mrow.material ≠ "" then stringSimilarity srow.material mrow.material
      else 0 }

/-- Vendor check, color similarity, consumption comparison and material
similarity for a matched PLM row (app.py lines 234-280), in source
order. -/
def processMatched (srow : SapRow) (mrow : PlmRow) (base : RowOut) : RowOut :=
  matSimStep srow mrow
    (consStep (safe_number srow.consRaw) (safe_number mrow.consRaw)
      (colorStep srow mrow (vendorStep srow mrow (withPlmFields mrow base))))

/-- One iteration of the run-comparison loop (app.py lines 163-287):
component exclusion first, then matching, then the matched-row checks. -/
def processRow (plmRows : List PlmRow) (threshold : ℕ) (srow : SapRow) : RowOut :=
  let base := initRow srow
  if componentExcluded srow.component then
    { base with Component_Flag := "Component excluded (contains '-' or starts with '3')"
                Notes := "Component exclusion - skipped further checks" }
  else
    match matchRecord plmRows threshold srow.material with
    | .exact r => processMatched srow r { base with Found_in_PLM := true }
    | .fuzzy r sc =>
        processMatched srow r
          { base with Found_in_PLM := true
                      Notes := "Fuzzy material match (score " ++ toString sc ++ ")" }
    | .unmatched diag => { base with Notes := diag }

/-- The whole comparison run: one outcome per baseline row, input order
preserved (app.py lines 160-287). -/
def runComparison (plmRows : List PlmRow) (threshold : ℕ) (sapRows : List SapRow) : List RowOut :=
  sapRows.map (processRow plmRows threshold)

/-- The six summary counters (app.py lines 293-298). -/
structure Summary where
  total : ℕ
  notInPLM : ℕ
  compExcluded : ℕ
  vendorMismatch : ℕ
  sapHigher : ℕ
  okCount : ℕ
  deriving Repr, DecidableEq

/-- Summary counters computed by counting predicates over the final outcome rows
(app.py lines 293-298). -/
def summarize (os : List RowOut) : Summary :=
  { total := os.length
    notInPLM := os.countP (fun o => o.Found_in_PLM == false)
    compExcluded := os.countP (fun o => o.Component_Flag != "")
    vendorMismatch := os.countP (fun o => o.Vendor_Check == "Vendor Not Found")
    sapHigher := os.countP (fun o => o.DifferenceFlag == "SAP consumption is higher")
    okCount := os.countP (fun o => o.DifferenceFlag == "OK") }

/-- The matched downstream row of a `MatchResult`, when there is one. -/
def matchedRow : MatchResult → Option PlmRow
  | .exact r => some r
  | .fuzzy r _ => some r
  | .unmatched _ => none

/-- Modelled from the spec: `normalizeConsumption` (§4.1).  No divisor
normalization is present in src/app.py (lines 171-172 and 237-238 parse
the raw quantities with `safe_number` only); the spec records this
function from the repository's other flow variants, so it is modelled
from the spec's words: divide by the divisor when it is in the whitelist
{1, 100, 1000} and non-zero, otherwise keep the quantity, rounding to a
fixed decimal precision either way. -/
def normalizeConsumption (q d : ℚ) : ℚ :=
  if (d = 1 ∨ d = 100 ∨ d = 1000) ∧ d ≠ 0 then round4 (q / d) else round4 q

/-- The consumption verdict of app.py lines 266-277 as a standalone
classifier: the recorded signed difference and the difference flag. -/
def consumptionVerdict (sap plm : Option ℚ) : Option ℚ × String :=
  match sap, plm with
  | some a, some b => (some (b - a), if b < a then "SAP consumption is higher" else "OK")
  | _, _ => (none, "Missing consumption value")

/-- Modelled from the spec: the §4.4-step-4 comparison with divisor
normalization applied to both sides' quantities before classification. -/
def consumptionVerdictNormalized (sap plm : Option ℚ) (ds dp : ℚ) : Option ℚ × String :=
  consumptionVerdict ((sap).map (fun q => normalizeConsumption q ds))
    ((plm).map (fun q => normalizeConsumption q dp))

/-! ## Scorer lemmas -/

theorem lcsLen_nil_right (x : List Char) : lcsLen x [] = 0 := by
  cases x <;> rfl

theorem lcsLen_cons_cons (a b : Char) (as bs : List Char) :
    lcsLen (a :: as) (b :: bs)
      = if a = b then 1 + lcsLen as bs
        else max (lcsLen (a :: as) bs) (lcsLen as (b :: bs)) := rfl

theorem lcsLen_self (x : List Char) : lcsLen x x = x.length := by
  induction x with
  | nil => simp [lcsLen]
  | cons a as ih => simp [lcsLen_cons_cons, ih, Nat.add_comm]

theorem lcsLen_comm (x y : List Char) : lcsLen x y = lcsLen y x := by
  induction x generalizing y with
  | nil => simp [lcsLen, lcsLen_nil_right]
  | cons a as iha =>
      induction y with
      | nil => simp [lcsLen, lcsAux, lcsLen_nil_right]
      | cons b bs ihb =>
          rw [lcsLen_cons_cons, lcsLen_cons_cons]
          by_cases hab : a = b
          · rw [if_pos hab, if_pos hab.symm, iha bs]
          · rw [if_neg hab, if_neg (fun h => hab h.symm), ihb, iha (b :: bs), Nat.max_comm]

theorem ratio100_self (x : List Char) : ratio100 x x = 100 := by
  unfold ratio100
  rcases Nat.eq_zero_or_pos x.length with h | h
  · simp [h]
  · have hne : x.length + x.length ≠ 0 := by omega
    rw [if_neg hne, lcsLen_self]
    exact Nat.div_eq_of_lt_le (by omega) (by omega)

theorem ratio100_comm (x y : List Char) : ratio100 x y = ratio100 y x := by
  unfold ratio100
  rw [lcsLen_comm, Nat.add_comm y.length]

/-- C8: `stringSimilarity(a, a) = 100` for every string `a` (in
particular every non-empty `a`), `stringSimilarity("", "") = 100`, and
`stringSimilarity` is symmetric; the function is total on all string
pairs. -/
theorem stringSimilarity_self_and_symm :
    (∀ a : String, stringSimilarity a a = 100) ∧
    stringSimilarity "" "" = 100 ∧
    (∀ a b : String, stringSimilarity a b = stringSimilarity b a) := by
  refine ⟨fun a => ?_, ?_, fun a b => ?_⟩
  · unfold stringSimilarity; exact ratio100_self _
  · unfold stringSimilarity; exact ratio100_self _
  · unfold stringSimilarity; exact ratio100_comm _ _

/-! ## Rounding and numeric-similarity lemmas -/

theorem round_mono_q {x y : ℚ} (h : x ≤ y) : round x ≤ round y := by
  rw [round_eq, round_eq]
  exact Int.floor_le_floor (by linarith)

theorem round2_nonneg {q : ℚ} (h : 0 ≤ q) : 0 ≤ round2 q := by
  unfold round2
  have h1 : (0 : ℤ) ≤ round (q * 100) := by
    have h2 := round_mono_q (show (0 : ℚ) ≤ q * 100 by nlinarith)
    simpa using h2
  have h3 : (0 : ℚ) ≤ ((round (q * 100) : ℤ) : ℚ) := by exact_mod_cast h1
  positivity

theorem round2_le_100 {q : ℚ} (h : q ≤ 100) : round2 q ≤ 100 := by
  unfold round2
  have h1 : round (q * 100) ≤ round ((10000 : ℚ)) := round_mono_q (by nlinarith)
  have h2 : round ((10000 : ℚ)) = 10000 := by norm_num
  rw [h2] at h1
  rw [div_le_iff₀ (by norm_num : (0 : ℚ) < 100)]
  calc ((round (q * 100) : ℤ) : ℚ) ≤ ((10000 : ℤ) : ℚ) := by exact_mod_cast h1
    _ = 100 * 100 := by norm_num

theorem round2_window_bounds (p : ℚ) (hp : 0 ≤ p) :
    0 ≤ round2 (max 0 (100 - p)) ∧ round2 (max 0 (100 - p)) ≤ 100 :=
  ⟨round2_nonneg (le_max_left _ _), round2_le_100 (max_le (by norm_num) (by linarith))⟩

theorem cs_bounds (oa ob : Option ℚ) :
    0 ≤ consumption_similarity oa ob ∧ consumption_similarity oa ob ≤ 100 := by
  unfold consumption_similarity
  rcases oa with _ | a <;> rcases ob with _ | b <;> simp only []
  · norm_num
  all_goals {
    simp only [Option.getD]
    split
    · norm_num
    · split
      · norm_num
      · exact round2_window_bounds _ (by positivity)
  }

/-- C7: `consumption_similarity` returns 100 when both inputs are
missing; with exactly one input missing it computes the score as if the
missing side were 0; with both present it equals
`round2 (100 - min 100 (|a-b| / max (|a|, |b|, 1) * 100))`; and the
result always lies in [0, 100] (the function is total, so it never
raises). -/
theorem consumption_similarity_spec (a b : ℚ) (oa ob : Option ℚ) :
    consumption_similarity none none = 100 ∧
    consumption_similarity (some a) none = consumption_similarity (some a) (some 0) ∧
    consumption_similarity none (some b) = consumption_similarity (some 0) (some b) ∧
    consumption_similarity (some a) (some b)
      = round2 (100 - min 100 (|a - b| / max (max |a| |b|) 1 * 100)) ∧
    0 ≤ consumption_similarity oa ob ∧ consumption_similarity oa ob ≤ 100 := by
  refine ⟨by norm_num [consumption_similarity], by simp [consumption_similarity],
    by simp [consumption_similarity], ?_, (cs_bounds oa ob).1, (cs_bounds oa ob).2⟩
  unfold consumption_similarity
  simp only [Option.getD]
  split
  · simp at *
  · split
    · next h =>
        obtain ⟨ha, hb⟩ := h
        subst ha; subst hb
        norm_num [round2]
    · next h =>
        have hmm : max 0 (100 - |a - b| / max (max |a| |b|) 1 * 100)
            = 100 - min 100 (|a - b| / max (max |a| |b|) 1 * 100) := by
          set p := |a - b| / max (max |a| |b|) 1 * 100 with hp
          rcases le_total p 100 with hle | hle
          · rw [min_eq_right hle, max_eq_right (by linarith)]
          · rw [min_eq_left hle, max_eq_left (by linarith)]
            norm_num
        rw [hmm]

/-! ## Matcher lemmas -/

theorem extractOneAux_snd_ge (q : String) :
    ∀ (cs : List String) (bv : String) (bs : ℕ), bs ≤ (extractOneAux q bv bs cs).2 := by
  intro cs
  induction cs with
  | nil => intro bv bs; simp [extractOneAux]
  | cons c cs ih =>
      intro bv bs
      simp only [extractOneAux]
      split
      · next h => exact le_trans (le_of_lt h) (ih c _)
      · exact ih bv bs

theorem extractOneAux_ub (q : String) :
    ∀ (cs : List String) (bv : String) (bs : ℕ) (c : String), c ∈ cs →
      stringSimilarity q c ≤ (extractOneAux q bv bs cs).2 := by
  intro cs
  induction cs with
  | nil => intro bv bs c hc; simp at hc
  | cons d ds ih =>
      intro bv bs c hc
      rcases List.mem_cons.mp hc with rfl | hmem
      · simp only [extractOneAux]
        split
        · next h => exact extractOneAux_snd_ge q ds c _
        · next h => exact le_trans (not_lt.mp h) (extractOneAux_snd_ge q ds bv bs)
      · simp only [extractOneAux]
        split
        · exact ih d _ c hmem
        · exact ih bv bs c hmem

theorem extractOneAux_fst_inv (q : String) :
    ∀ (cs : List String) (bv : String) (bs : ℕ), bs = stringSimilarity q bv →
      (extractOneAux q bv bs cs).2 = stringSimilarity q (extractOneAux q bv bs cs).1 := by
  intro cs
  induction cs with
  | nil => intro bv bs h; simpa [extractOneAux] using h
  | cons c cs ih =>
      intro bv bs h
      simp only [extractOneAux]
      split
      · exact ih c _ rfl
      · exact ih bv bs h

theorem extractOneAux_fst_mem (q : String) :
    ∀ (cs : List String) (bv : String) (bs : ℕ),
      (extractOneAux q bv bs cs).1 = bv ∨ (extractOneAux q bv bs cs).1 ∈ cs := by
  intro cs
  induction cs with
  | nil => intro bv bs; left; rfl
  | cons c cs ih =>
      intro bv bs
      simp only [extractOneAux]
      split
      · rcases ih c _ with h | h
        · right; exact List.mem_cons.mpr (Or.inl h)
        · right; exact List.mem_cons.mpr (Or.inr h)
      · rcases ih bv bs with h | h
        · left; exact h
        · right; exact List.mem_cons.mpr (Or.inr h)

/-- The result of `extractOne` is a member of the choice list, carrying its own
scorer value, maximal among all choices. -/
theorem extractOne_spec {q : String} {choices : List String} {v : String} {sc : ℕ}
    (h : extractOne q choices = some (v, sc)) :
    v ∈ choices ∧ sc = stringSimilarity q v ∧ ∀ c ∈ choices, stringSimilarity q c ≤ sc := by
  cases choices with
  | nil => simp [extractOne] at h
  | cons c cs =>
      simp only [extractOne, Option.some_inj] at h
      have hv : v = (extractOneAux q c (stringSimilarity q c) cs).1 := by rw [h]
      have hsc : sc = (extractOneAux q c (stringSimilarity q c) cs).2 := by rw [h]
      refine ⟨?_, ?_, ?_⟩
      · rcases extractOneAux_fst_mem q cs c (stringSimilarity q c) with hm | hm
        · rw [hv, hm]; exact List.mem_cons_self c cs
        · rw [hv]; exact List.mem_cons.mpr (Or.inr hm)
      · rw [hv, hsc]; exact (extractOneAux_fst_inv q cs c (stringSimilarity q c) rfl).symm ▸ rfl
      · intro x hx
        rcases List.mem_cons.mp hx with rfl | hmem
        · rw [hsc]; exact extractOneAux_snd_ge q cs x (stringSimilarity q x)
        · rw [hsc]; exact extractOneAux_ub q cs c (stringSimilarity q c) x hmem

/-- C2 counterexample: a baseline record whose material key is the
empty string, while a downstream record carries exactly that (empty) key.
The key equals a downstream key, yet the matcher does not return
ExactMatch (the code requires a truthy key before the index lookup, so
the empty key falls through to the fuzzy fallback). -/
theorem exact_match_empty_key_cex :
    PlmRow.material ⟨"", "V1", "", "5"⟩ = "" ∧
    matchRecord [⟨"", "V1", "", "5"⟩] 85 ""
      ≠ MatchResult.exact ⟨"", "V1", "", "5"⟩ := by decide

/-- C2 (amended): for every baseline record whose material key is
non-empty and exactly equals the key of some downstream record, the
matcher returns ExactMatch bound to the first downstream record under
that key, and the result is identical for every threshold value. -/
theorem matchRecord_exact_spec (plmRows : List PlmRow) (t t' : ℕ)
    (mat : String) (r : PlmRow) (hmat : mat ≠ "")
    (hfind : plmRows.find? (fun x => x.material == mat) = some r) :
    matchRecord plmRows t mat = .exact r ∧
    matchRecord plmRows t mat = matchRecord plmRows t' mat := by
  constructor
  · unfold matchRecord
    rw [hfind]
    simp [hmat]
  · unfold matchRecord
    rw [hfind]
    simp [hmat]

/-- C2 witness: a concrete exact-key match, identical across two
different thresholds. -/
theorem matchRecord_exact_witness :
    matchRecord [⟨"M1", "V1", "", "12"⟩] 85 "M1" = .exact ⟨"M1", "V1", "", "12"⟩ ∧
    matchRecord [⟨"M1", "V1", "", "12"⟩] 85 "M1"
      = matchRecord [⟨"M1", "V1", "", "12"⟩] 60 "M1" :=
  matchRecord_exact_spec _ 85 60 "M1" _ (by decide) (by decide)

/-- C3: for a baseline record with no exact downstream key match: with
an empty downstream universe the matcher returns Unmatched with the
no-candidates diagnostic; otherwise the best fuzzy candidate's score
bounds every downstream key's similarity from above, a first record
carrying the best key exists, and the matcher returns FuzzyMatch bound
to that first record with the recorded score when the score reaches the
threshold, and otherwise Unmatched with the best score in its
diagnostic.  The function is total, so the matcher never raises. -/
theorem fuzzy_fallback_spec (plmRows : List PlmRow) (t : ℕ) (mat : String)
    (hnoexact : ∀ r ∈ plmRows, r.material ≠ mat) :
    (plmRows = [] → matchRecord plmRows t mat = .unmatched "PLM materials list empty") ∧
    (∀ v sc, extractOne mat (plmRows.map (fun r => r.material)) = some (v, sc) →
      (∀ r ∈ plmRows, stringSimilarity mat r.material ≤ sc) ∧
      (plmRows.find? (fun x => x.material == v)).isSome ∧
      (t ≤ sc → ∀ r, plmRows.find? (fun x => x.material == v) = some r →
          matchRecord plmRows t mat = .fuzzy r sc) ∧
      (sc < t → matchRecord plmRows t mat
          = .unmatched ("Material not found in PLM (best material fuzzy score "
              ++ toString sc ++ ")"))) := by
  have hfind : plmRows.find? (fun x => x.material == mat) = none := by
    apply List.find?_eq_none.mpr
    intro x hx
    simpa using hnoexact x hx
  constructor
  · intro h; subst h; simp [matchRecord]
  · intro v sc hext
    obtain ⟨hvmem, hsceq, hub⟩ := extractOne_spec hext
    have hnonempty : ¬ (plmRows.map (fun r => r.material)).isEmpty = true := by
      intro hemp
      rw [List.isEmpty_iff.mp hemp] at hext
      simp [extractOne] at hext
    refine ⟨?_, ?_, ?_, ?_⟩
    · intro r hr
      exact hub _ (List.mem_map_of_mem _ hr)
    · rw [List.find?_isSome]
      obtain ⟨x, hx, hxv⟩ := List.mem_map.mp hvmem
      exact ⟨x, hx, by simp [hxv]⟩
    · intro hts r hfr
      unfold matchRecord
      rw [hfind]
      simp only [Option.isSome_none]
      rw [if_neg (by simp), if_neg hnonempty, hext]
      simp [hts, hfr]
    · intro hst
      unfold matchRecord
      rw [hfind]
      simp only [Option.isSome_none]
      rw [if_neg (by simp), if_neg hnonempty, hext]
      simp [Nat.not_le.mpr hst]

/-- C3 witness: key "M2" absent downstream, best candidate "M2X" with
score 80 ≥ threshold 75 → FuzzyMatch on the first "M2X" record with the
score recorded. -/
theorem fuzzy_fallback_witness :
    (∀ r ∈ [(⟨"M2X", "V1", "", "12"⟩ : PlmRow)], r.material ≠ "M2") ∧
    matchRecord [(⟨"M2X", "V1", "", "12"⟩ : PlmRow)] 75 "M2"
      = .fuzzy ⟨"M2X", "V1", "", "12"⟩ 80 :=
  ⟨by decide,
    ((fuzzy_fallback_spec _ 75 "M2" (by decide)).2 "M2X" 80 (by decide)).2.2.1
      (by decide) _ (by decide)⟩

/-! ## Rule-evaluator lemmas -/

theorem vendorStep_preserves (srow : SapRow) (mrow : PlmRow) (b : RowOut) :
    (vendorStep srow mrow b).DifferenceFlag = b.DifferenceFlag ∧
    (vendorStep srow mrow b).ConsumptionDiff = b.ConsumptionDiff ∧
    (vendorStep srow mrow b).Found_in_PLM = b.Found_in_PLM ∧
    (vendorStep srow mrow b).Component_Flag = b.Component_Flag := by
  unfold vendorStep
  split
  · exact ⟨rfl, rfl, rfl, rfl⟩
  · split
    · exact ⟨rfl, rfl, rfl, rfl⟩
    · exact ⟨rfl, rfl, rfl, rfl⟩

theorem colorStep_preserves (srow : SapRow) (mrow : PlmRow) (b : RowOut) :
    (colorStep srow mrow b).DifferenceFlag = b.DifferenceFlag ∧
    (colorStep srow mrow b).ConsumptionDiff = b.ConsumptionDiff ∧
    (colorStep srow mrow b).Vendor_Check = b.Vendor_Check ∧
    (colorStep srow mrow b).Found_in_PLM = b.Found_in_PLM ∧
    (colorStep srow mrow b).Component_Flag = b.Component_Flag := by
  unfold colorStep
  split
  · exact ⟨rfl, rfl, rfl, rfl, rfl⟩
  · exact ⟨rfl, rfl, rfl, rfl, rfl⟩

theorem consStep_preserves (oa ob : Option ℚ) (b : RowOut) :
    (consStep oa ob b).Vendor_Check = b.Vendor_Check ∧
    (consStep oa ob b).Found_in_PLM = b.Found_in_PLM ∧
    (consStep oa ob b).Component_Flag = b.Component_Flag := by
  unfold consStep
  rcases oa with _ | a <;> rcases ob with _ | bq <;> exact ⟨rfl, rfl, rfl⟩

theorem matSimStep_Vendor_Check (srow : SapRow) (mrow : PlmRow) (b : RowOut) :
    (matSimStep srow mrow b).Vendor_Check = b.Vendor_Check := rfl

/-- On excluded components the loop records only the exclusion flag and
note, leaving every other output field at its initialized default. -/
theorem processRow_excluded (plmRows : List PlmRow) (t : ℕ) (srow : SapRow)
    (hexc : componentExcluded srow.component) :
    processRow plmRows t srow
      = { initRow srow with
            Component_Flag := "Component excluded (contains '-' or starts with '3')"
            Notes := "Component exclusion - skipped further checks" } := by
  simp only [processRow]
  rw [if_pos hexc]

/-- A matched, non-excluded record's outcome is `processMatched` of some
base record. -/
theorem processRow_matched_ex (plmRows : List PlmRow) (t : ℕ) (srow : SapRow) (r : PlmRow)
    (hnexc : ¬ componentExcluded srow.component)
    (hm : matchedRow (matchRecord plmRows t srow.material) = some r) :
    ∃ base, processRow plmRows t srow = processMatched srow r base := by
  simp only [processRow]
  rw [if_neg hnexc]
  rcases hmr : matchRecord plmRows t srow.material with r' | ⟨r', sc⟩ | d
  · rw [hmr] at hm
    simp only [matchedRow, Option.some_inj] at hm
    subst hm
    exact ⟨_, rfl⟩
  · rw [hmr] at hm
    simp only [matchedRow, Option.some_inj] at hm
    subst hm
    exact ⟨_, rfl⟩
  · rw [hmr] at hm
    simp [matchedRow] at hm

/-- Consumption comparison through the matched-row pipeline. -/
theorem processMatched_consumption (srow : SapRow) (mrow : PlmRow) (base : RowOut) :
    ((safe_number srow.consRaw = none ∨ safe_number mrow.consRaw = none) →
       (processMatched srow mrow base).DifferenceFlag = "Missing consumption value" ∧
       (processMatched srow mrow base).ConsumptionDiff = none) ∧
    (∀ qs qp, safe_number srow.consRaw = some qs → safe_number mrow.consRaw = some qp →
       (processMatched srow mrow base).ConsumptionDiff = some (qp - qs) ∧
       (processMatched srow mrow base).DifferenceFlag
         = (if qp < qs then "SAP consumption is higher" else "OK")) := by
  constructor
  · intro hmiss
    unfold processMatched matSimStep
    rcases hs : safe_number srow.consRaw with _ | qs
    · rcases hp : safe_number mrow.consRaw with _ | qp <;> exact ⟨rfl, rfl⟩
    · rcases hp : safe_number mrow.consRaw with _ | qp
      · exact ⟨rfl, rfl⟩
      · exfalso
        rcases hmiss with h | h
        · rw [hs] at h; exact Option.noConfusion h
        · rw [hp] at h; exact Option.noConfusion h
  · intro qs qp hs hp
    unfold processMatched matSimStep
    rw [hs, hp]
    exact ⟨rfl, rfl⟩

/-- The vendor verdict of the matched-row pipeline is the `vendorStep`
verdict: later steps do not change it. -/
theorem processMatched_Vendor_Check (srow : SapRow) (mrow : PlmRow) (base : RowOut) :
    (processMatched srow mrow base).Vendor_Check
      = (vendorStep srow mrow (withPlmFields mrow base)).Vendor_Check := by
  unfold processMatched
  rw [matSimStep_Vendor_Check, (consStep_preserves _ _ _).1, (colorStep_preserves _ _ _).2.2.1]

/-- C1: for every baseline record whose component field is non-empty and
either contains a hyphen or begins with the digit 3 after stripping
leading whitespace, the evaluator marks the component-exclusion flag,
performs no vendor verification and no consumption comparison, and
leaves every downstream-dependent field at its not-applicable default
(match flag false, empty verdicts, no diff, zero similarity scores,
empty matched-row fields). -/
theorem component_exclusion_spec (plmRows : List PlmRow) (t : ℕ) (srow : SapRow)
    (hexc : componentExcluded srow.component) :
    processRow plmRows t srow
      = { initRow srow with
            Component_Flag := "Component excluded (contains '-' or starts with '3')"
            Notes := "Component exclusion - skipped further checks" } ∧
    (processRow plmRows t srow).Found_in_PLM = false ∧
    (processRow plmRows t srow).Vendor_Check = "" ∧
    (processRow plmRows t srow).DifferenceFlag = "" ∧
    (processRow plmRows t srow).ConsumptionDiff = none ∧
    (processRow plmRows t srow).PLM_Material = "" ∧
    (processRow plmRows t srow).Vendor_PLM = "" ∧
    (processRow plmRows t srow).Color_PLM = "" ∧
    (processRow plmRows t srow).PLM_Consumption = none ∧
    (processRow plmRows t srow).Material_Similarity = 0 ∧
    (processRow plmRows t srow).Color_Similarity = 0 ∧
    (processRow plmRows t srow).Consumption_Similarity = 0 := by
  have h := processRow_excluded plmRows t srow hexc
  refine ⟨h, ?_, ?_, ?_, ?_, ?_, ?_, ?_, ?_, ?_, ?_, ?_⟩ <;> rw [h] <;> rfl

/-- C1 witness: component "3-XYZ" is excluded and the outcome keeps all
downstream-dependent defaults even though a matching PLM row exists. -/
theorem component_exclusion_witness :
    componentExcluded "3-XYZ" ∧
    (processRow [⟨"M9", "V9", "", "7"⟩] 85 ⟨"M9", "3-XYZ", "d", "V9", "", "7"⟩).Found_in_PLM
      = false ∧
    (processRow [⟨"M9", "V9", "", "7"⟩] 85 ⟨"M9", "3-XYZ", "d", "V9", "", "7"⟩).Vendor_Check
      = "" ∧
    (processRow [⟨"M9", "V9", "", "7"⟩] 85 ⟨"M9", "3-XYZ", "d", "V9", "", "7"⟩).DifferenceFlag
      = "" := by
  have h := component_exclusion_spec [⟨"M9", "V9", "", "7"⟩] 85
    ⟨"M9", "3-XYZ", "d", "V9", "", "7"⟩ (by decide)
  exact ⟨by decide, h.2.1, h.2.2.1, h.2.2.2.1⟩

/-- C4: for a matched, non-excluded record, an unparseable quantity on
either side records the missing-value flag with no numeric difference;
otherwise the signed difference downstream minus baseline is recorded,
the flag is the baseline-higher marker exactly when baseline >
downstream, and OK exactly when downstream ≥ baseline. -/
theorem consumption_comparison_spec (plmRows : List PlmRow) (t : ℕ) (srow : SapRow) (r : PlmRow)
    (hnexc : ¬ componentExcluded srow.component)
    (hm : matchedRow (matchRecord plmRows t srow.material) = some r) :
    ((safe_number srow.consRaw = none ∨ safe_number r.consRaw = none) →
        (processRow plmRows t srow).DifferenceFlag = "Missing consumption value" ∧
        (processRow plmRows t srow).ConsumptionDiff = none) ∧
    (∀ qs qp, safe_number srow.consRaw = some qs → safe_number r.consRaw = some qp →
        (processRow plmRows t srow).ConsumptionDiff = some (qp - qs) ∧
        ((processRow plmRows t srow).DifferenceFlag = "SAP consumption is higher" ↔ qp < qs) ∧
        ((processRow plmRows t srow).DifferenceFlag = "OK" ↔ qs ≤ qp)) := by
  obtain ⟨base, hb⟩ := processRow_matched_ex plmRows t srow r hnexc hm
  rw [hb]
  refine ⟨(processMatched_consumption srow r base).1, fun qs qp hs hp => ?_⟩
  obtain ⟨hd, hf⟩ := (processMatched_consumption srow r base).2 qs qp hs hp
  refine ⟨hd, ?_, ?_⟩
  · rw [hf]
    by_cases hlt : qp < qs
    · rw [if_pos hlt]
      exact iff_of_true rfl hlt
    · rw [if_neg hlt]
      exact iff_of_false (by decide) hlt
  · rw [hf]
    by_cases hlt : qp < qs
    · rw [if_pos hlt]
      exact iff_of_false (by decide) (not_le.mpr hlt)
    · rw [if_neg hlt]
      exact iff_of_true rfl (not_lt.mp hlt)

/-- Parsed quantity of the literal "10". -/
theorem safe_number_ten : safe_number "10" = some 10 := by
  have h : safe_number "10" = some ((10 : ℕ) : ℚ) := rfl
  rw [h]; norm_num

/-- Parsed quantity of the literal "12". -/
theorem safe_number_twelve : safe_number "12" = some 12 := by
  have h : safe_number "12" = some ((12 : ℕ) : ℚ) := rfl
  rw [h]; norm_num

/-- C4 witness: baseline 10 vs downstream 12 on an exact match yields
difference +2 and the OK flag. -/
theorem consumption_comparison_witness :
    ¬ componentExcluded "AB" ∧
    matchedRow (matchRecord [⟨"M1", "V1", "", "12"⟩] 85 "M1") = some ⟨"M1", "V1", "", "12"⟩ ∧
    (processRow [⟨"M1", "V1", "", "12"⟩] 85 ⟨"M1", "AB", "d", "V1", "", "10"⟩).ConsumptionDiff
      = some (12 - 10) ∧
    (processRow [⟨"M1", "V1", "", "12"⟩] 85 ⟨"M1", "AB", "d", "V1", "", "10"⟩).DifferenceFlag
      = "OK" := by
  have h := (consumption_comparison_spec [⟨"M1", "V1", "", "12"⟩] 85
    ⟨"M1", "AB", "d", "V1", "", "10"⟩ ⟨"M1", "V1", "", "12"⟩ (by decide) (by decide)).2
    10 12 safe_number_ten safe_number_twelve
  exact ⟨by decide, by decide, h.1, h.2.2.mpr (by norm_num)⟩

/-- C5 counterexample: a matched record whose baseline and downstream
vendor references are both the empty string.  The trimmed references are
equal, yet the verdict is Not Found (the code requires truthy vendor
values before either check). -/
theorem vendor_check_empty_equal_cex :
    SapRow.vendor ⟨"M1", "AB", "d", "", "", "5"⟩ = PlmRow.vendor ⟨"M1", "", "", "5"⟩ ∧
    (processRow [⟨"M1", "", "", "5"⟩] 85 ⟨"M1", "AB", "d", "", "", "5"⟩).Vendor_Check
      = "Vendor Not Found" := by decide

/-- C5 (amended): for a matched, non-excluded record the vendor verdict
is OK (exact) when both vendor references are non-empty and equal,
otherwise OK (found in description) when the downstream reference is
non-empty and a substring of the baseline material description,
otherwise Not Found; and the consumption comparison is still evaluated
regardless of the vendor verdict. -/
theorem vendor_check_spec (plmRows : List PlmRow) (t : ℕ) (srow : SapRow) (r : PlmRow)
    (hnexc : ¬ componentExcluded srow.component)
    (hm : matchedRow (matchRecord plmRows t srow.material) = some r) :
    ((srow.vendor ≠ "" ∧ r.vendor ≠ "" ∧ srow.vendor = r.vendor) →
        (processRow plmRows t srow).Vendor_Check = "Vendor OK (exact match)") ∧
    (¬(srow.vendor ≠ "" ∧ r.vendor ≠ "" ∧ srow.vendor = r.vendor) →
      (r.vendor ≠ "" ∧ strContainsSub srow.desc r.vendor = true) →
        (processRow plmRows t srow).Vendor_Check = "Vendor OK (found in material description)") ∧
    (¬(srow.vendor ≠ "" ∧ r.vendor ≠ "" ∧ srow.vendor = r.vendor) →
      ¬(r.vendor ≠ "" ∧ strContainsSub srow.desc r.vendor = true) →
        (processRow plmRows t srow).Vendor_Check = "Vendor Not Found") ∧
    (∀ qs qp, safe_number srow.consRaw = some qs → safe_number r.consRaw = some qp →
        (processRow plmRows t srow).ConsumptionDiff = some (qp - qs) ∧
        (processRow plmRows t srow).DifferenceFlag
          = (if qp < qs then "SAP consumption is higher" else "OK")) := by
  obtain ⟨base, hb⟩ := processRow_matched_ex plmRows t srow r hnexc hm
  rw [hb]
  refine ⟨fun h1 => ?_, fun h1 h2 => ?_, fun h1 h2 => ?_,
    (processMatched_consumption srow r base).2⟩
  · rw [processMatched_Vendor_Check]
    unfold vendorStep
    rw [if_pos h1]
  · rw [processMatched_Vendor_Check]
    unfold vendorStep
    rw [if_neg h1, if_pos h2]
  · rw [processMatched_Vendor_Check]
    unfold vendorStep
    rw [if_neg h1, if_neg h2]

/-- C5 witness: equal non-empty vendor references on an exact match give
the exact-match vendor verdict. -/
theorem vendor_check_witness :
    ¬ componentExcluded "AB" ∧
    (processRow [⟨"M1", "V1", "", "12"⟩] 85 ⟨"M1", "AB", "d", "V1", "", "10"⟩).Vendor_Check
      = "Vendor OK (exact match)" :=
  ⟨by decide,
    (vendor_check_spec [⟨"M1", "V1", "", "12"⟩] 85 ⟨"M1", "AB", "d", "V1", "", "10"⟩
      ⟨"M1", "V1", "", "12"⟩ (by decide) (by decide)).1 (by decide)⟩

/-- C6: the divisor-normalization helper divides by the divisor (with
fixed-precision rounding) exactly when the divisor is whitelisted
{1, 100, 1000} and non-zero, and otherwise keeps the quantity (same
rounding); the normalized comparison applies it to both sides before
classification. -/
theorem normalizeConsumption_spec (q d : ℚ) (oa ob : Option ℚ) (ds dp : ℚ) :
    ((d = 1 ∨ d = 100 ∨ d = 1000) ∧ d ≠ 0 → normalizeConsumption q d = round4 (q / d)) ∧
    (¬((d = 1 ∨ d = 100 ∨ d = 1000) ∧ d ≠ 0) → normalizeConsumption q d = round4 q) ∧
    consumptionVerdictNormalized oa ob ds dp
      = consumptionVerdict (oa.map (fun x => normalizeConsumption x ds))
          (ob.map (fun x => normalizeConsumption x dp)) := by
  refine ⟨fun h => ?_, fun h => ?_, rfl⟩
  · unfold normalizeConsumption
    rw [if_pos h]
  · unfold normalizeConsumption
    rw [if_neg h]

/-- C6 witness: divisor 100 is whitelisted and divides; divisor 7 is not
and leaves the quantity unchanged (up to rounding). -/
theorem normalizeConsumption_witness :
    (((100 : ℚ) = 1 ∨ (100 : ℚ) = 100 ∨ (100 : ℚ) = 1000) ∧ (100 : ℚ) ≠ 0) ∧
    normalizeConsumption 5 100 = round4 (5 / 100) ∧
    ¬(((7 : ℚ) = 1 ∨ (7 : ℚ) = 100 ∨ (7 : ℚ) = 1000) ∧ (7 : ℚ) ≠ 0) ∧
    normalizeConsumption 5 7 = round4 5 :=
  ⟨⟨by norm_num, by norm_num⟩,
    (normalizeConsumption_spec 5 100 none none 1 1).1 ⟨by norm_num, by norm_num⟩,
    by norm_num,
    (normalizeConsumption_spec 5 7 none none 1 1).2.1 (by norm_num)⟩

/-- C9: the summary is deterministic (running it twice on the same
outcome set yields identical counters) and order-independent (a
permutation of the outcomes yields identical counters). -/
theorem summarize_invariant (os os' : List RowOut) (hperm : os.Perm os') :
    summarize os = summarize os ∧ summarize os = summarize os' := by
  refine ⟨rfl, ?_⟩
  unfold summarize
  simp only [hperm.length_eq, hperm.countP_eq]

/-- C9 witness: swapping two concrete outcomes leaves the counters
unchanged. -/
theorem summarize_invariant_witness :
    summarize [initRow ⟨"A", "", "", "", "", ""⟩, initRow ⟨"B", "", "", "", "", ""⟩]
      = summarize [initRow ⟨"B", "", "", "", "", ""⟩, initRow ⟨"A", "", "", "", "", ""⟩] :=
  (summarize_invariant _ _
    (List.Perm.swap (initRow ⟨"B", "", "", "", "", ""⟩) (initRow ⟨"A", "", "", "", "", ""⟩) [])).2

/-- C10: a component-excluded record keeps the matched flag false, so it
is counted by both the not-in-PLM counter and the component-excluded
counter — the summary counters overlap rather than partition the
outcomes. -/
theorem excluded_counted_in_both (plmRows : List PlmRow) (t : ℕ) (srow : SapRow)
    (os : List RowOut) (hexc : componentExcluded srow.component) :
    (processRow plmRows t srow).Found_in_PLM = false ∧
    (processRow plmRows t srow).Component_Flag ≠ "" ∧
    (summarize (processRow plmRows t srow :: os)).notInPLM = (summarize os).notInPLM + 1 ∧
    (summarize (processRow plmRows t srow :: os)).compExcluded
      = (summarize os).compExcluded + 1 := by
  have h := processRow_excluded plmRows t srow hexc
  have hf : (processRow plmRows t srow).Found_in_PLM = false := by rw [h]; rfl
  have hc : (processRow plmRows t srow).Component_Flag
      = "Component excluded (contains '-' or starts with '3')" := by rw [h]
  refine ⟨hf, ?_, ?_, ?_⟩
  · rw [hc]; decide
  · unfold summarize
    simp only [List.countP_cons, hf]
    simp
  · unfold summarize
    simp only [List.countP_cons, hc]
    simp

/-- C10 witness: a single excluded record is counted once by both
counters at the same time. -/
theorem excluded_counted_witness :
    componentExcluded "3-XYZ" ∧
    (summarize [processRow [] 85 ⟨"M9", "3-XYZ", "d", "V9", "", "7"⟩]).notInPLM = 1 ∧
    (summarize [processRow [] 85 ⟨"M9", "3-XYZ", "d", "V9", "", "7"⟩]).compExcluded = 1 := by
  have h := excluded_counted_in_both [] 85 ⟨"M9", "3-XYZ", "d", "V9", "", "7"⟩ [] (by decide)
  refine ⟨by decide, ?_, ?_⟩
  · have h2 := h.2.2.1
    simpa [summarize] using h2
  · have h2 := h.2.2.2
    simpa [summarize] using h2

end BomValidation
